import Mathlib

/-!
Verification of `kornia/filters/bilateral.py` (function `bilateral_blur` and
module `BilateralBlur`) against its natural-language specification.

The image pipeline is embedded shallowly over the real numbers:
an image of shape (B, C, H, W) is a function `Fin B → Fin C → Fin H → Fin W → ℝ`.
Fallible validation is modelled with `Except String`; the order in which the
source performs array computations before its `color_distance_type` check is
recorded by an explicit list of trace steps returned next to the result.

Collaborators of `bilateral.py` that live elsewhere in the repository
(`_unpack_2d_ks`, `_compute_zero_padding`, `pad`, `get_gaussian_kernel2d`,
`KORNIA_CHECK_SHAPE`) are modelled from the specification; each such
definition carries a doc comment starting with `Modelled from the spec:`.
-/

namespace Kornia

/-- A (B, C, H, W) image of real-valued pixels.  The source works on
`torch.Tensor`s of rank 4; the shape lives in the type. -/
def Image (B C H W : ℕ) : Type := Fin B → Fin C → Fin H → Fin W → ℝ

/-- The `kernel_size` argument: `tuple[int, int] | int` in the source. -/
inductive KernelSize
  | single (k : ℤ)
  | pair (kx ky : ℤ)
deriving DecidableEq

/-- The `sigma_color` argument: `float | Tensor` in the source, where a tensor
is required to be one-dimensional (a per-batch vector). -/
inductive SigmaColor
  | scalar (v : ℝ)
  | vector (vs : List ℝ)

/-- The recognized `border_type` values. -/
inductive BorderType
  | constant
  | reflect
  | replicate
  | circular
deriving DecidableEq

/-- Array computations that `bilateral_blur` performs before its
`color_distance_type` check: padding, window extraction (`unfold`),
and the difference `unfolded - input.unsqueeze(-1)`. -/
inductive TraceStep
  | padStep
  | unfoldStep
  | diffStep
deriving DecidableEq

/-- A kernel size that passed validation: both components positive and odd. -/
structure ValidKs where
  kx : ℕ
  ky : ℕ
  kxPos : 0 < kx
  kxOdd : kx % 2 = 1
  kyPos : 0 < ky
  kyOdd : ky % 2 = 1

/-- The spec's phrase for an invalid kernel size: some component is even or
non-positive. -/
def hasEvenOrNonPos : KernelSize → Prop
  | .single k => k ≤ 0 ∨ k % 2 = 0
  | .pair kx ky => kx ≤ 0 ∨ kx % 2 = 0 ∨ ky ≤ 0 ∨ ky % 2 = 0

instance : (ks : KernelSize) → Decidable (hasEvenOrNonPos ks)
  | .single k => inferInstanceAs (Decidable (k ≤ 0 ∨ k % 2 = 0))
  | .pair kx ky => inferInstanceAs (Decidable (kx ≤ 0 ∨ kx % 2 = 0 ∨ ky ≤ 0 ∨ ky % 2 = 0))

/-- Modelled from the spec: `_unpack_2d_ks` (in `kornia/filters/kernels.py`,
not under `src/`).  KernelSize is "a pair (kx, ky) of positive odd integers; a
single integer denotes kx=ky", and a "kernel size with an even or non-positive
component must raise a validation error". -/
def unpack2dKs : KernelSize → Except String ValidKs
  | .single k =>
      if h : 0 < k ∧ k % 2 = 1 then
        .ok ⟨k.toNat, k.toNat, by omega, by omega, by omega, by omega⟩
      else .error "kernel size components must be positive odd integers"
  | .pair kx ky =>
      if h : (0 < kx ∧ kx % 2 = 1) ∧ (0 < ky ∧ ky % 2 = 1) then
        .ok ⟨kx.toNat, ky.toNat, by omega, by omega, by omega, by omega⟩
      else .error "kernel size components must be positive odd integers"

/-- Modelled from the spec: the `KORNIA_CHECK_SHAPE(sigma_color, ['B'])` call
(checker in `kornia/core/check.py`, not under `src/`): "a sigma_color vector
whose length mismatches the batch dimension must raise a validation error",
and a scalar "is applied to every batch element". -/
def checkSigmaColor (B : ℕ) : SigmaColor → Except String (Fin B → ℝ)
  | .scalar v => .ok fun _ => v
  | .vector vs =>
      if h : vs.length = B then
        .ok fun b => vs.get (Fin.cast h.symm b)
      else .error "sigma_color as a vector must have length B"

/-- Modelled from the spec: the 1-D index mapping of the BorderPadder
(`torch.nn.functional.pad`, external collaborator).  For an axis of size `n`,
maps a possibly out-of-range coordinate `t` to the in-range source index it
reads from; `none` means the constant (zero) extension is used. -/
def extendIdx (bt : BorderType) (n : ℕ) (t : ℤ) : Option (Fin n) :=
  if hn : 0 < n then
    match bt with
    | .constant =>
        if h : 0 ≤ t ∧ t < (n : ℤ) then some ⟨t.toNat, by omega⟩ else none
    | .replicate =>
        some ⟨(min t ((n : ℤ) - 1)).toNat, by
          have h1 : min t ((n : ℤ) - 1) ≤ (n : ℤ) - 1 := min_le_right _ _
          omega⟩
    | .circular =>
        some ⟨(t % (n : ℤ)).toNat, by
          have h1 := Int.emod_nonneg t (show ((n : ℤ)) ≠ 0 by omega)
          have h2 := Int.emod_lt_of_pos t (show (0 : ℤ) < (n : ℤ) by omega)
          omega⟩
    | .reflect =>
        if hn1 : 1 < n then
          if hm : t % (2 * (n : ℤ) - 2) < (n : ℤ) then
            some ⟨(t % (2 * (n : ℤ) - 2)).toNat, by
              have h1 := Int.emod_nonneg t (show (2 * (n : ℤ) - 2) ≠ 0 by omega)
              omega⟩
          else
            some ⟨((2 * (n : ℤ) - 2) - t % (2 * (n : ℤ) - 2)).toNat, by
              have h1 := Int.emod_nonneg t (show (2 * (n : ℤ) - 2) ≠ 0 by omega)
              have h2 := Int.emod_lt_of_pos t (show (0 : ℤ) < 2 * (n : ℤ) - 2 by omega)
              omega⟩
        else some ⟨0, hn⟩
  else none

variable {B C H W : ℕ}

/-- Modelled from the spec: `pad(input, (pad_x, pad_x, pad_y, pad_y),
mode=border_type)` with `pad_y = (ky - 1) / 2`, `pad_x = (kx - 1) / 2`
(`_compute_zero_padding` is not under `src/`; the BorderPadder is external).
Out-of-range reads in `constant` mode take the value 0. -/
def padImage (bt : BorderType) (v : ValidKs) (x : Image B C H W) :
    Fin B → Fin C → Fin (H + 2 * ((v.ky - 1) / 2)) → Fin (W + 2 * ((v.kx - 1) / 2)) → ℝ :=
  fun b c i j =>
    match extendIdx bt H ((i : ℤ) - (((v.ky - 1) / 2 : ℕ) : ℤ)),
          extendIdx bt W ((j : ℤ) - (((v.kx - 1) / 2 : ℕ) : ℤ)) with
    | some i2, some j2 => x b c i2 j2
    | _, _ => 0

/-- Row offset of flattened window index `k`: after
`unfold(2, ky, 1).unfold(3, kx, 1).flatten(-2)` the last axis has length
`ky * kx` and index `k` stands for offsets `(k / kx, k % kx)`. -/
def winRow (v : ValidKs) (k : Fin (v.ky * v.kx)) : Fin v.ky :=
  ⟨(k : ℕ) / v.kx, Nat.div_lt_of_lt_mul (lt_of_lt_of_eq k.isLt (Nat.mul_comm v.ky v.kx))⟩

/-- Column offset of flattened window index `k`. -/
def winCol (v : ValidKs) (k : Fin (v.ky * v.kx)) : Fin v.kx :=
  ⟨(k : ℕ) % v.kx, Nat.mod_lt _ v.kxPos⟩

/-- Source: `unfolded = padded.unfold(2, ky, 1).unfold(3, kx, 1).flatten(-2)`;
entry `(b, c, h, w, k)` is the padded-image value at window offset `k` of the
window whose top-left corner sits at `(h, w)` of the padded image. -/
def unfolded (v : ValidKs) (bt : BorderType) (x : Image B C H W) :
    Fin B → Fin C → Fin H → Fin W → Fin (v.ky * v.kx) → ℝ :=
  fun b c h w k =>
    padImage bt v x b c
      ⟨(h : ℕ) + winRow v k, by
        have h1 := (winRow v k).isLt
        have h2 := v.kyOdd
        have h3 := h.isLt
        omega⟩
      ⟨(w : ℕ) + winCol v k, by
        have h1 := (winCol v k).isLt
        have h2 := v.kxOdd
        have h3 := w.isLt
        omega⟩

/-- Source: `diff = unfolded - input.unsqueeze(-1)`. -/
def diffW (v : ValidKs) (bt : BorderType) (x : Image B C H W) :
    Fin B → Fin C → Fin H → Fin W → Fin (v.ky * v.kx) → ℝ :=
  fun b c h w k => unfolded v bt x b c h w k - x b c h w

/-- Source, `l1` branch: `color_distance_sq = diff.abs().sum(1, keepdim=True).square()`. -/
def colorDistSqL1 (v : ValidKs) (bt : BorderType) (x : Image B C H W) :
    Fin B → Fin H → Fin W → Fin (v.ky * v.kx) → ℝ :=
  fun b h w k => (∑ c, |diffW v bt x b c h w k|) ^ 2

/-- Source, `l2` branch: `color_distance_sq = diff.square().sum(1, keepdim=True)`. -/
def colorDistSqL2 (v : ValidKs) (bt : BorderType) (x : Image B C H W) :
    Fin B → Fin H → Fin W → Fin (v.ky * v.kx) → ℝ :=
  fun b h w k => ∑ c, (diffW v bt x b c h w k) ^ 2

/-- Source: `color_kernel = (-0.5 / sigma_color**2 * color_distance_sq).exp()`. -/
noncomputable def colorKernel (σ : Fin B → ℝ)
    (distSq : Fin B → Fin H → Fin W → Fin K → ℝ) :
    Fin B → Fin H → Fin W → Fin K → ℝ :=
  fun b h w k => Real.exp (-0.5 / σ b ^ 2 * distSq b h w k)

/-- Modelled from the spec: a 1-D Gaussian sample of the SpatialKernelBuilder
(`get_gaussian_kernel1d`, not under `src/`), prior to normalization. -/
noncomputable def gaussian1d (k : ℕ) (σ : ℝ) (i : Fin k) : ℝ :=
  Real.exp (-(((i : ℕ) : ℝ) - (((k : ℕ) : ℝ) - 1) / 2) ^ 2 / (2 * σ ^ 2))

/-- Modelled from the spec: the normalized 1-D Gaussian kernel ("a flattened,
normalized spatial weight array ... summing to 1"). -/
noncomputable def normGaussian1d (k : ℕ) (σ : ℝ) (i : Fin k) : ℝ :=
  gaussian1d k σ i / ∑ j, gaussian1d k σ j

/-- Modelled from the spec: `get_gaussian_kernel2d(kernel_size, sigma_space)`
flattened row-major to length `ky * kx`, matching the window ordering of
`unfolded` (outer product of the two normalized 1-D kernels). -/
noncomputable def spaceKernel (v : ValidKs) (ss : ℝ × ℝ) (k : Fin (v.ky * v.kx)) : ℝ :=
  normGaussian1d v.ky ss.1 (winRow v k) * normGaussian1d v.kx ss.2 (winCol v k)

/-- Source: `out = (unfolded * kernel).sum(-1) / kernel.sum(-1)`, the kernel
being broadcast across the channel axis. -/
noncomputable def normalizedAggregate (unf : Fin B → Fin C → Fin H → Fin W → Fin K → ℝ)
    (kern : Fin B → Fin H → Fin W → Fin K → ℝ) : Image B C H W :=
  fun b c h w => (∑ k, unf b c h w k * kern b h w k) / (∑ k, kern b h w k)

/-- Source: `kernel = space_kernel * color_kernel`, for a given
`color_distance_sq` (the L1 or L2 branch assigns it before this point). -/
noncomputable def kernelW (v : ValidKs) (σ : Fin B → ℝ) (ss : ℝ × ℝ)
    (distSq : Fin B → Fin H → Fin W → Fin (v.ky * v.kx) → ℝ) :
    Fin B → Fin H → Fin W → Fin (v.ky * v.kx) → ℝ :=
  fun b h w k => spaceKernel v ss k * colorKernel σ distSq b h w k

/-- The output image produced once all validation has passed, for a given
`color_distance_sq`. -/
noncomputable def blurOut (v : ValidKs) (σ : Fin B → ℝ) (ss : ℝ × ℝ) (bt : BorderType)
    (distSq : Fin B → Fin H → Fin W → Fin (v.ky * v.kx) → ℝ)
    (x : Image B C H W) : Image B C H W :=
  normalizedAggregate (unfolded v bt x) (kernelW v σ ss distSq)

/-- `bilateral_blur`, instrumented with the list of array-computation steps the
source performs before (possibly) rejecting `color_distance_type`.  The source
order is: sigma_color shape check, kernel-size unpacking, padding, window
extraction, difference, and only then the `l1`/`l2` dispatch whose `else`
branch raises `ValueError`. -/
noncomputable def bilateralBlurT (x : Image B C H W) (ks : KernelSize) (sc : SigmaColor)
    (ss : ℝ × ℝ) (bt : BorderType) (cdt : String) :
    List TraceStep × Except String (Image B C H W) :=
  match checkSigmaColor B sc with
  | .error e => ([], .error e)
  | .ok σ =>
    match unpack2dKs ks with
    | .error e => ([], .error e)
    | .ok v =>
      if cdt = "l1" then
        ([.padStep, .unfoldStep, .diffStep],
          .ok (blurOut v σ ss bt (colorDistSqL1 v bt x) x))
      else if cdt = "l2" then
        ([.padStep, .unfoldStep, .diffStep],
          .ok (blurOut v σ ss bt (colorDistSqL2 v bt x) x))
      else
        ([.padStep, .unfoldStep, .diffStep],
          .error "color_distance_type only acceps l1 or l2")

/-- Source entry point `bilateral_blur` (result only, trace dropped). -/
noncomputable def bilateral_blur (x : Image B C H W) (ks : KernelSize) (sc : SigmaColor)
    (ss : ℝ × ℝ) (bt : BorderType) (cdt : String) :
    Except String (Image B C H W) :=
  (bilateralBlurT x ks sc ss bt cdt).2

/-- Source class `BilateralBlur`: stores the five configuration fields. -/
structure BilateralBlur where
  kernel_size : KernelSize
  sigma_color : SigmaColor
  sigma_space : ℝ × ℝ
  border_type : BorderType
  color_distance_type : String

/-- Source: `BilateralBlur.forward` calls `bilateral_blur` with the stored
configuration. -/
noncomputable def BilateralBlur.forward (m : BilateralBlur) (input : Image B C H W) :
    Except String (Image B C H W) :=
  bilateral_blur input m.kernel_size m.sigma_color m.sigma_space
    m.border_type m.color_distance_type

/-- Spatial constancy: for fixed batch and channel, every pixel over H and W
has the same value. -/
def IsSpatiallyConstant (x : Image B C H W) : Prop :=
  ∀ b c h w h2 w2, x b c h w = x b c h2 w2

/-- The combined weight worded as in the spec:
`color_weight(b,h,w,k) = exp(−0.5 · distance(b,h,w,k) / sigma_color(b)²)`
multiplied by the spatial weight for offset `k`.  To be compared against the
source's `space_kernel * (-0.5 / sigma_color**2 * color_distance_sq).exp()`. -/
noncomputable def specCombinedWeight (v : ValidKs) (σ : Fin B → ℝ) (ss : ℝ × ℝ)
    (distSq : Fin B → Fin H → Fin W → Fin (v.ky * v.kx) → ℝ) :
    Fin B → Fin H → Fin W → Fin (v.ky * v.kx) → ℝ :=
  fun b h w k => Real.exp (-(0.5 * distSq b h w k / σ b ^ 2)) * spaceKernel v ss k

lemma gaussian1d_pos (k : ℕ) (σ : ℝ) (i : Fin k) : 0 < gaussian1d k σ i :=
  Real.exp_pos _

lemma sum_gaussian1d_pos (k : ℕ) (σ : ℝ) (i : Fin k) :
    0 < ∑ j, gaussian1d k σ j :=
  Finset.sum_pos (fun j _ => gaussian1d_pos k σ j) ⟨i, Finset.mem_univ i⟩

lemma normGaussian1d_pos (k : ℕ) (σ : ℝ) (i : Fin k) : 0 < normGaussian1d k σ i :=
  div_pos (gaussian1d_pos k σ i) (sum_gaussian1d_pos k σ i)

lemma spaceKernel_pos (v : ValidKs) (ss : ℝ × ℝ) (k : Fin (v.ky * v.kx)) :
    0 < spaceKernel v ss k :=
  mul_pos (normGaussian1d_pos _ _ _) (normGaussian1d_pos _ _ _)

lemma winUnivNonempty (v : ValidKs) :
    (Finset.univ : Finset (Fin (v.ky * v.kx))).Nonempty :=
  ⟨⟨0, Nat.mul_pos v.kyPos v.kxPos⟩, Finset.mem_univ _⟩

lemma sum_spaceKernel_pos (v : ValidKs) (ss : ℝ × ℝ) :
    0 < ∑ k, spaceKernel v ss k :=
  Finset.sum_pos (fun k _ => spaceKernel_pos v ss k) (winUnivNonempty v)

lemma kernelW_pos (v : ValidKs) (σ : Fin B → ℝ) (ss : ℝ × ℝ)
    (distSq : Fin B → Fin H → Fin W → Fin (v.ky * v.kx) → ℝ)
    (b : Fin B) (h : Fin H) (w : Fin W) (k : Fin (v.ky * v.kx)) :
    0 < kernelW v σ ss distSq b h w k :=
  mul_pos (spaceKernel_pos v ss k) (Real.exp_pos _)

lemma bilateralBlurT_run_l1 (x : Image B C H W) (ks : KernelSize)
    (sc : SigmaColor) (ss : ℝ × ℝ) (bt : BorderType) {σ : Fin B → ℝ} {v : ValidKs}
    (hσ : checkSigmaColor B sc = .ok σ) (hks : unpack2dKs ks = .ok v) :
    bilateralBlurT x ks sc ss bt "l1" =
      ([.padStep, .unfoldStep, .diffStep],
        .ok (blurOut v σ ss bt (colorDistSqL1 v bt x) x)) := by
  unfold bilateralBlurT
  rw [hσ, hks]
  simp

lemma bilateralBlurT_run_l2 (x : Image B C H W) (ks : KernelSize)
    (sc : SigmaColor) (ss : ℝ × ℝ) (bt : BorderType) {σ : Fin B → ℝ} {v : ValidKs}
    (hσ : checkSigmaColor B sc = .ok σ) (hks : unpack2dKs ks = .ok v) :
    bilateralBlurT x ks sc ss bt "l2" =
      ([.padStep, .unfoldStep, .diffStep],
        .ok (blurOut v σ ss bt (colorDistSqL2 v bt x) x)) := by
  unfold bilateralBlurT
  rw [hσ, hks]
  simp

lemma bilateralBlurT_run_bad (x : Image B C H W) (ks : KernelSize)
    (sc : SigmaColor) (ss : ℝ × ℝ) (bt : BorderType) (cdt : String)
    {σ : Fin B → ℝ} {v : ValidKs}
    (hσ : checkSigmaColor B sc = .ok σ) (hks : unpack2dKs ks = .ok v)
    (h1 : cdt ≠ "l1") (h2 : cdt ≠ "l2") :
    bilateralBlurT x ks sc ss bt cdt =
      ([.padStep, .unfoldStep, .diffStep],
        .error "color_distance_type only acceps l1 or l2") := by
  unfold bilateralBlurT
  rw [hσ, hks]
  simp [h1, h2]

lemma extendIdx_isSome (bt : BorderType) (hbt : bt ≠ .constant) {n : ℕ}
    (hn : 0 < n) (t : ℤ) : (extendIdx bt n t).isSome = true := by
  unfold extendIdx
  rw [dif_pos hn]
  cases bt with
  | constant => exact absurd rfl hbt
  | replicate => rfl
  | circular => rfl
  | reflect =>
    dsimp only
    by_cases hn1 : 1 < n
    · rw [dif_pos hn1]
      by_cases hm : t % (2 * (n : ℤ) - 2) < (n : ℤ)
      · rw [dif_pos hm]; rfl
      · rw [dif_neg hm]; rfl
    · rw [dif_neg hn1]; rfl

lemma padImage_mem (bt : BorderType) (v : ValidKs) (x : Image B C H W)
    (b : Fin B) (c : Fin C) (i : Fin (H + 2 * ((v.ky - 1) / 2)))
    (j : Fin (W + 2 * ((v.kx - 1) / 2))) :
    padImage bt v x b c i j = 0 ∨ ∃ a d, padImage bt v x b c i j = x b c a d := by
  unfold padImage
  split
  · right; exact ⟨_, _, rfl⟩
  · left; rfl

lemma padImage_of_constant (bt : BorderType) (hbt : bt ≠ .constant) (v : ValidKs)
    {x : Image B C H W} (hx : IsSpatiallyConstant x) (b : Fin B) (c : Fin C)
    (i : Fin (H + 2 * ((v.ky - 1) / 2))) (j : Fin (W + 2 * ((v.kx - 1) / 2)))
    (h0 : Fin H) (w0 : Fin W) :
    padImage bt v x b c i j = x b c h0 w0 := by
  unfold padImage
  have hH := extendIdx_isSome bt hbt h0.pos ((i : ℤ) - (((v.ky - 1) / 2 : ℕ) : ℤ))
  have hW := extendIdx_isSome bt hbt w0.pos ((j : ℤ) - (((v.kx - 1) / 2 : ℕ) : ℤ))
  rcases hI : extendIdx bt H ((i : ℤ) - (((v.ky - 1) / 2 : ℕ) : ℤ)) with _ | i2
  · rw [hI] at hH; simp at hH
  rcases hJ : extendIdx bt W ((j : ℤ) - (((v.kx - 1) / 2 : ℕ) : ℤ)) with _ | j2
  · rw [hJ] at hW; simp at hW
  exact hx b c i2 j2 h0 w0

lemma unfolded_of_constant (bt : BorderType) (hbt : bt ≠ .constant) (v : ValidKs)
    {x : Image B C H W} (hx : IsSpatiallyConstant x) (b : Fin B) (c : Fin C)
    (h : Fin H) (w : Fin W) (k : Fin (v.ky * v.kx)) :
    unfolded v bt x b c h w k = x b c h w := by
  unfold unfolded
  exact padImage_of_constant bt hbt v hx b c _ _ h w

lemma unfolded_le (v : ValidKs) (bt : BorderType) {x : Image B C H W} {M : ℝ}
    (hb : ∀ b c h w, x b c h w ≤ M) (h0 : 0 ≤ M) (b : Fin B) (c : Fin C)
    (h : Fin H) (w : Fin W) (k : Fin (v.ky * v.kx)) :
    unfolded v bt x b c h w k ≤ M := by
  unfold unfolded
  rcases padImage_mem bt v x b c
      ⟨(h : ℕ) + winRow v k, by
        have h1 := (winRow v k).isLt
        have h2 := v.kyOdd
        have h3 := h.isLt
        omega⟩
      ⟨(w : ℕ) + winCol v k, by
        have h1 := (winCol v k).isLt
        have h2 := v.kxOdd
        have h3 := w.isLt
        omega⟩ with hz | ⟨a, d, hv⟩
  · rw [hz]; exact h0
  · rw [hv]; exact hb b c a d

lemma colorDistSqL1_of_constant (bt : BorderType) (hbt : bt ≠ .constant)
    (v : ValidKs) {x : Image B C H W} (hx : IsSpatiallyConstant x)
    (b : Fin B) (h : Fin H) (w : Fin W) (k : Fin (v.ky * v.kx)) :
    colorDistSqL1 v bt x b h w k = 0 := by
  unfold colorDistSqL1
  have h1 : (∑ c, |diffW v bt x b c h w k|) = 0 := by
    apply Finset.sum_eq_zero
    intro c _
    unfold diffW
    rw [unfolded_of_constant bt hbt v hx b c h w k]
    simp
  rw [h1]
  norm_num

lemma colorDistSqL2_of_constant (bt : BorderType) (hbt : bt ≠ .constant)
    (v : ValidKs) {x : Image B C H W} (hx : IsSpatiallyConstant x)
    (b : Fin B) (h : Fin H) (w : Fin W) (k : Fin (v.ky * v.kx)) :
    colorDistSqL2 v bt x b h w k = 0 := by
  unfold colorDistSqL2
  apply Finset.sum_eq_zero
  intro c _
  unfold diffW
  rw [unfolded_of_constant bt hbt v hx b c h w k]
  norm_num

lemma blurOut_of_constant (v : ValidKs) (σ : Fin B → ℝ) (ss : ℝ × ℝ)
    (bt : BorderType) (hbt : bt ≠ .constant)
    {distSq : Fin B → Fin H → Fin W → Fin (v.ky * v.kx) → ℝ}
    (hd : ∀ b h w k, distSq b h w k = 0)
    {x : Image B C H W} (hx : IsSpatiallyConstant x) :
    blurOut v σ ss bt distSq x = x := by
  funext b c h w
  have hker : ∀ k, kernelW v σ ss distSq b h w k = spaceKernel v ss k := by
    intro k
    unfold kernelW colorKernel
    rw [hd b h w k, mul_zero, Real.exp_zero, mul_one]
  have hnum : (∑ k, unfolded v bt x b c h w k * kernelW v σ ss distSq b h w k)
      = x b c h w * ∑ k, spaceKernel v ss k := by
    rw [Finset.mul_sum]
    apply Finset.sum_congr rfl
    intro k _
    rw [unfolded_of_constant bt hbt v hx b c h w k, hker k]
  have hden : (∑ k, kernelW v σ ss distSq b h w k) = ∑ k, spaceKernel v ss k :=
    Finset.sum_congr rfl fun k _ => hker k
  show normalizedAggregate (unfolded v bt x) (kernelW v σ ss distSq) b c h w = x b c h w
  unfold normalizedAggregate
  rw [hnum, hden, mul_div_assoc, div_self (ne_of_gt (sum_spaceKernel_pos v ss)),
    mul_one]

/-- The all-ones image of shape (1, 1, 1, 1). -/
def oneImage : Image 1 1 1 1 := fun _ _ _ _ => 1

/-- The constant-5 image of shape (1, 1, 2, 2). -/
def fiveImage : Image 1 1 2 2 := fun _ _ _ _ => 5

/-- The validated 3×3 kernel size. -/
def v3 : ValidKs := ⟨3, 3, by decide, by decide, by decide, by decide⟩

/-- The validated 1×1 kernel size. -/
def v1 : ValidKs := ⟨1, 1, by decide, by decide, by decide, by decide⟩

lemma unpack_pair33 : unpack2dKs (.pair 3 3) = .ok v3 := rfl

lemma unpack_single3 : unpack2dKs (.single 3) = .ok v3 := rfl

lemma unpack_pair11 : unpack2dKs (.pair 1 1) = .ok v1 := rfl

/-- C1 counterexample: calling `bilateral_blur` with the unrecognized
color-distance type "l3" on an otherwise fully valid input does raise the
validation error, but padding, window extraction and the difference
computation are all performed before the rejection — contradicting the claim
that no array computation happens first. -/
theorem claim1_counterexample :
    (bilateralBlurT oneImage (.pair 1 1) (.scalar 1) (1, 1) .reflect "l3").2 =
      .error "color_distance_type only acceps l1 or l2" ∧
    TraceStep.padStep ∈
      (bilateralBlurT oneImage (.pair 1 1) (.scalar 1) (1, 1) .reflect "l3").1 ∧
    TraceStep.unfoldStep ∈
      (bilateralBlurT oneImage (.pair 1 1) (.scalar 1) (1, 1) .reflect "l3").1 ∧
    TraceStep.diffStep ∈
      (bilateralBlurT oneImage (.pair 1 1) (.scalar 1) (1, 1) .reflect "l3").1 := by
  have h := bilateralBlurT_run_bad oneImage (.pair 1 1) (.scalar 1) (1, 1)
    .reflect "l3" rfl unpack_pair11 (by decide) (by decide)
  rw [h]
  refine ⟨rfl, ?_, ?_, ?_⟩ <;> simp

/-- C1 (amended): for every call with a `color_distance_type` other than
"l1"/"l2" that passes the earlier sigma_color and kernel-size validation, a
validation error is raised — but only after padding, window extraction and
the difference computation have been performed. -/
theorem claim1_rejects_after_array_work (x : Image B C H W) (ks : KernelSize)
    (sc : SigmaColor) (ss : ℝ × ℝ) (bt : BorderType) (cdt : String)
    {σ : Fin B → ℝ} {v : ValidKs}
    (hσ : checkSigmaColor B sc = .ok σ) (hks : unpack2dKs ks = .ok v)
    (h1 : cdt ≠ "l1") (h2 : cdt ≠ "l2") :
    bilateralBlurT x ks sc ss bt cdt =
      ([.padStep, .unfoldStep, .diffStep],
        .error "color_distance_type only acceps l1 or l2") :=
  bilateralBlurT_run_bad x ks sc ss bt cdt hσ hks h1 h2

/-- Witness for the amended C1 at a concrete input. -/
theorem claim1_witness :
    checkSigmaColor 1 (.scalar 2) = .ok (fun _ => 2) ∧
    unpack2dKs (.single 3) = .ok v3 ∧
    "manhattan" ≠ "l1" ∧ "manhattan" ≠ "l2" ∧
    bilateralBlurT oneImage (.single 3) (.scalar 2) (1, 2) .replicate "manhattan" =
      ([.padStep, .unfoldStep, .diffStep],
        .error "color_distance_type only acceps l1 or l2") :=
  ⟨rfl, rfl, by decide, by decide,
    claim1_rejects_after_array_work oneImage (.single 3) (.scalar 2) (1, 2)
      .replicate "manhattan" rfl unpack_single3 (by decide) (by decide)⟩

/-- C2: a sigma_color vector whose length differs from the batch dimension B
is rejected with a validation error before any numeric work (empty trace). -/
theorem claim2_sigma_vector_mismatch (x : Image B C H W) (ks : KernelSize)
    (vs : List ℝ) (ss : ℝ × ℝ) (bt : BorderType) (cdt : String)
    (hlen : vs.length ≠ B) :
    bilateralBlurT x ks (.vector vs) ss bt cdt =
      ([], .error "sigma_color as a vector must have length B") := by
  unfold bilateralBlurT checkSigmaColor
  dsimp only
  rw [dif_neg hlen]

/-- Witness for C2 at a concrete input: a length-2 vector against batch 1. -/
theorem claim2_witness :
    ([(1 : ℝ), 2]).length ≠ 1 ∧
    bilateralBlurT oneImage (.pair 3 3) (.vector [(1 : ℝ), 2]) (1, 1) .reflect "l1" =
      ([], .error "sigma_color as a vector must have length B") :=
  ⟨by decide,
    claim2_sigma_vector_mismatch oneImage (.pair 3 3) [(1 : ℝ), 2] (1, 1)
      .reflect "l1" (by decide)⟩

/-- C9: a kernel size with an even or non-positive component is rejected with
a validation error (given that the sigma_color check, which the source runs
first, passes). -/
theorem claim9_kernel_size_validation (x : Image B C H W) (ks : KernelSize)
    (sc : SigmaColor) (ss : ℝ × ℝ) (bt : BorderType) (cdt : String)
    {σ : Fin B → ℝ} (hσ : checkSigmaColor B sc = .ok σ)
    (hbad : hasEvenOrNonPos ks) :
    bilateralBlurT x ks sc ss bt cdt =
      ([], .error "kernel size components must be positive odd integers") := by
  unfold bilateralBlurT
  rw [hσ]
  cases ks with
  | single k =>
    have hb : k ≤ 0 ∨ k % 2 = 0 := hbad
    unfold unpack2dKs
    dsimp only
    rw [dif_neg (show ¬(0 < k ∧ k % 2 = 1) by omega)]
  | pair kx ky =>
    have hb : kx ≤ 0 ∨ kx % 2 = 0 ∨ ky ≤ 0 ∨ ky % 2 = 0 := hbad
    unfold unpack2dKs
    dsimp only
    rw [dif_neg (show ¬((0 < kx ∧ kx % 2 = 1) ∧ (0 < ky ∧ ky % 2 = 1)) by omega)]

/-- Witness for C9 at a concrete input: kernel size (2, 3) has an even
component. -/
theorem claim9_witness :
    hasEvenOrNonPos (.pair 2 3) ∧
    bilateralBlurT oneImage (.pair 2 3) (.scalar 1) (1, 1) .reflect "l1" =
      ([], .error "kernel size components must be positive odd integers") :=
  ⟨by decide,
    claim9_kernel_size_validation oneImage (.pair 2 3) (.scalar 1) (1, 1)
      .reflect "l1" rfl (by decide)⟩

/-- C5: the color distance used by the pipeline, computed from the
per-channel differences `d_c` = neighborhood sample − center pixel, equals
`(Σ_c |d_c|)²` in the "l1" branch and `Σ_c d_c²` in the "l2" branch. -/
theorem claim5_color_distance (v : ValidKs) (bt : BorderType)
    (x : Image B C H W) (b : Fin B) (h : Fin H) (w : Fin W)
    (k : Fin (v.ky * v.kx)) :
    colorDistSqL1 v bt x b h w k =
      (∑ c, |unfolded v bt x b c h w k - x b c h w|) ^ 2 ∧
    colorDistSqL2 v bt x b h w k =
      ∑ c, (unfolded v bt x b c h w k - x b c h w) ^ 2 :=
  ⟨rfl, rfl⟩

/-- Witness for C5 at a concrete input. -/
theorem claim5_witness :
    colorDistSqL1 v3 .reflect fiveImage 0 0 0 ⟨4, by decide⟩ =
      (∑ c, |unfolded v3 .reflect fiveImage 0 c 0 0 ⟨4, by decide⟩ -
        fiveImage 0 c 0 0|) ^ 2 ∧
    colorDistSqL2 v3 .reflect fiveImage 0 0 0 ⟨4, by decide⟩ =
      ∑ c, (unfolded v3 .reflect fiveImage 0 c 0 0 ⟨4, by decide⟩ -
        fiveImage 0 c 0 0) ^ 2 :=
  claim5_color_distance v3 .reflect fiveImage 0 0 0 ⟨4, by decide⟩

/-- C8: applying a `BilateralBlur` object built from a configuration gives
exactly the same result as calling `bilateral_blur` directly with that
configuration (the source's `forward` delegates verbatim). -/
theorem claim8_module_equals_function (ks : KernelSize) (sc : SigmaColor)
    (ss : ℝ × ℝ) (bt : BorderType) (cdt : String) (x : Image B C H W) :
    (BilateralBlur.mk ks sc ss bt cdt).forward x =
      bilateral_blur x ks sc ss bt cdt := rfl

/-- Witness for C8 at a concrete configuration and image. -/
theorem claim8_witness :
    (BilateralBlur.mk (.pair 3 3) (.scalar 1) (1.5, 1.5) .reflect "l1").forward
        fiveImage =
      bilateral_blur fiveImage (.pair 3 3) (.scalar 1) (1.5, 1.5) .reflect "l1" :=
  claim8_module_equals_function (.pair 3 3) (.scalar 1) (1.5, 1.5) .reflect "l1"
    fiveImage

/-- C3 (amended): for every spatially-constant image, the output equals the
input exactly, for every valid kernel size, sigma_color, sigma_space and every
border type other than `constant` (zero padding injects zeros into border
windows, which breaks the identity for nonzero constants). -/
theorem claim3_constant_image_identity (x : Image B C H W)
    (hx : IsSpatiallyConstant x) (ks : KernelSize) (sc : SigmaColor)
    (ss : ℝ × ℝ) (bt : BorderType) (cdt : String) {σ : Fin B → ℝ} {v : ValidKs}
    (hσ : checkSigmaColor B sc = .ok σ) (hks : unpack2dKs ks = .ok v)
    (hbt : bt ≠ .constant) (hcdt : cdt = "l1" ∨ cdt = "l2") :
    bilateral_blur x ks sc ss bt cdt = .ok x := by
  unfold bilateral_blur
  rcases hcdt with h | h <;> subst h
  · rw [bilateralBlurT_run_l1 x ks sc ss bt hσ hks]
    exact congrArg Except.ok
      (blurOut_of_constant v σ ss bt hbt (colorDistSqL1_of_constant bt hbt v hx) hx)
  · rw [bilateralBlurT_run_l2 x ks sc ss bt hσ hks]
    exact congrArg Except.ok
      (blurOut_of_constant v σ ss bt hbt (colorDistSqL2_of_constant bt hbt v hx) hx)

/-- Witness for the amended C3 at a concrete input: the constant-5 image of
shape (1,1,2,2) with a 3×3 kernel and reflect padding comes back unchanged. -/
theorem claim3_witness :
    IsSpatiallyConstant fiveImage ∧ BorderType.reflect ≠ BorderType.constant ∧
    bilateral_blur fiveImage (.pair 3 3) (.scalar 1) (1, 1) .reflect "l1" =
      .ok fiveImage :=
  ⟨fun _ _ _ _ _ _ => rfl, by decide,
    claim3_constant_image_identity fiveImage (fun _ _ _ _ _ _ => rfl) (.pair 3 3)
      (.scalar 1) (1, 1) .reflect "l1" rfl unpack_pair33 (by decide) (Or.inl rfl)⟩

/-- C3 counterexample: with border type `constant` the identity fails.  The
all-ones 1×1×1×1 image with a 3×3 kernel is averaged against zero padding, so
the single output pixel is strictly below 1 and the output differs from the
input, although the input is spatially constant and all parameters are valid. -/
theorem claim3_counterexample :
    bilateral_blur oneImage (.pair 3 3) (.scalar 1) (1, 1) .constant "l1" ≠
      .ok oneImage := by
  have hrun : bilateral_blur oneImage (.pair 3 3) (.scalar 1) (1, 1) .constant "l1"
      = .ok (blurOut v3 (fun _ => 1) (1, 1) .constant
          (colorDistSqL1 v3 .constant oneImage) oneImage) := by
    unfold bilateral_blur
    rw [bilateralBlurT_run_l1 oneImage (.pair 3 3) (.scalar 1) (1, 1) .constant rfl
      unpack_pair33]
  rw [hrun]
  intro hEq
  injection hEq with hEq2
  have h1 : blurOut v3 (fun _ => 1) (1, 1) .constant
      (colorDistSqL1 v3 .constant oneImage) oneImage 0 0 0 0 = 1 :=
    congrFun (congrFun (congrFun (congrFun hEq2 0) 0) 0) 0
  have hWpos : ∀ k : Fin (v3.ky * v3.kx),
      0 < kernelW v3 (fun _ => 1) (1, 1)
        (colorDistSqL1 v3 .constant oneImage) 0 0 0 k :=
    fun k => kernelW_pos v3 (fun _ => 1) (1, 1) _ 0 0 0 k
  have hUle : ∀ k, unfolded v3 .constant oneImage 0 0 0 0 k ≤ 1 :=
    fun k => unfolded_le v3 .constant (fun _ _ _ _ => le_refl 1) (by norm_num)
      0 0 0 0 k
  have hU0 : unfolded v3 .constant oneImage 0 0 0 0 ⟨0, by decide⟩ = 0 := rfl
  have hlt : (∑ k, unfolded v3 .constant oneImage 0 0 0 0 k *
        kernelW v3 (fun _ => 1) (1, 1)
          (colorDistSqL1 v3 .constant oneImage) 0 0 0 k)
      < ∑ k, kernelW v3 (fun _ => 1) (1, 1)
          (colorDistSqL1 v3 .constant oneImage) 0 0 0 k := by
    apply Finset.sum_lt_sum
    · intro k _
      calc unfolded v3 .constant oneImage 0 0 0 0 k *
            kernelW v3 (fun _ => 1) (1, 1)
              (colorDistSqL1 v3 .constant oneImage) 0 0 0 k
          ≤ 1 * kernelW v3 (fun _ => 1) (1, 1)
              (colorDistSqL1 v3 .constant oneImage) 0 0 0 k :=
            mul_le_mul_of_nonneg_right (hUle k) (le_of_lt (hWpos k))
        _ = kernelW v3 (fun _ => 1) (1, 1)
              (colorDistSqL1 v3 .constant oneImage) 0 0 0 k := one_mul _
    · refine ⟨⟨0, by decide⟩, Finset.mem_univ _, ?_⟩
      rw [hU0, zero_mul]
      exact hWpos _
  have hden : 0 < ∑ k, kernelW v3 (fun _ => 1) (1, 1)
      (colorDistSqL1 v3 .constant oneImage) 0 0 0 k :=
    Finset.sum_pos (fun k _ => hWpos k) (winUnivNonempty v3)
  have hfrac : (∑ k, unfolded v3 .constant oneImage 0 0 0 0 k *
        kernelW v3 (fun _ => 1) (1, 1)
          (colorDistSqL1 v3 .constant oneImage) 0 0 0 k) /
      (∑ k, kernelW v3 (fun _ => 1) (1, 1)
          (colorDistSqL1 v3 .constant oneImage) 0 0 0 k) < 1 :=
    (div_lt_one hden).mpr hlt
  have hout : blurOut v3 (fun _ => 1) (1, 1) .constant
      (colorDistSqL1 v3 .constant oneImage) oneImage 0 0 0 0 =
      (∑ k, unfolded v3 .constant oneImage 0 0 0 0 k *
        kernelW v3 (fun _ => 1) (1, 1)
          (colorDistSqL1 v3 .constant oneImage) 0 0 0 k) /
      (∑ k, kernelW v3 (fun _ => 1) (1, 1)
          (colorDistSqL1 v3 .constant oneImage) 0 0 0 k) := rfl
  rw [hout] at h1
  linarith

/-- C4: for every validated input, every output pixel equals the weighted sum
of its window samples divided by the sum of the weights, where the weight of
sample `k` at `(b,h,w)` is `exp(−0.5·distance/σ_b²)` multiplied by the spatial
kernel weight (the spec's wording, `specCombinedWeight`). -/
theorem claim4_output_formula (x : Image B C H W) (ks : KernelSize)
    (sc : SigmaColor) (ss : ℝ × ℝ) (bt : BorderType) (cdt : String)
    {σ : Fin B → ℝ} {v : ValidKs}
    (hσ : checkSigmaColor B sc = .ok σ) (hks : unpack2dKs ks = .ok v)
    (hcdt : cdt = "l1" ∨ cdt = "l2") :
    bilateral_blur x ks sc ss bt cdt = .ok (fun b c h w =>
      (∑ k, unfolded v bt x b c h w k *
          specCombinedWeight v σ ss
            (if cdt = "l1" then colorDistSqL1 v bt x else colorDistSqL2 v bt x)
            b h w k) /
      (∑ k, specCombinedWeight v σ ss
            (if cdt = "l1" then colorDistSqL1 v bt x else colorDistSqL2 v bt x)
            b h w k)) := by
  unfold bilateral_blur
  rcases hcdt with h | h <;> subst h
  · rw [bilateralBlurT_run_l1 x ks sc ss bt hσ hks]
    refine congrArg Except.ok ?_
    funext b c h w
    rw [if_pos rfl]
    show normalizedAggregate (unfolded v bt x)
      (kernelW v σ ss (colorDistSqL1 v bt x)) b c h w = _
    unfold normalizedAggregate kernelW colorKernel specCombinedWeight
    congr 1
    · apply Finset.sum_congr rfl
      intro k _
      have he : -0.5 / σ b ^ 2 * colorDistSqL1 v bt x b h w k
          = -(0.5 * colorDistSqL1 v bt x b h w k / σ b ^ 2) := by ring
      rw [he]; ring
    · apply Finset.sum_congr rfl
      intro k _
      have he : -0.5 / σ b ^ 2 * colorDistSqL1 v bt x b h w k
          = -(0.5 * colorDistSqL1 v bt x b h w k / σ b ^ 2) := by ring
      rw [he]; ring
  · rw [bilateralBlurT_run_l2 x ks sc ss bt hσ hks]
    refine congrArg Except.ok ?_
    funext b c h w
    rw [if_neg (by decide)]
    show normalizedAggregate (unfolded v bt x)
      (kernelW v σ ss (colorDistSqL2 v bt x)) b c h w = _
    unfold normalizedAggregate kernelW colorKernel specCombinedWeight
    congr 1
    · apply Finset.sum_congr rfl
      intro k _
      have he : -0.5 / σ b ^ 2 * colorDistSqL2 v bt x b h w k
          = -(0.5 * colorDistSqL2 v bt x b h w k / σ b ^ 2) := by ring
      rw [he]; ring
    · apply Finset.sum_congr rfl
      intro k _
      have he : -0.5 / σ b ^ 2 * colorDistSqL2 v bt x b h w k
          = -(0.5 * colorDistSqL2 v bt x b h w k / σ b ^ 2) := by ring
      rw [he]; ring

/-- Witness for C4 at a concrete input. -/
theorem claim4_witness :
    checkSigmaColor 1 (.scalar 1) = .ok (fun _ => (1 : ℝ)) ∧
    unpack2dKs (.pair 1 1) = .ok v1 ∧
    bilateral_blur oneImage (.pair 1 1) (.scalar 1) (1, 1) .reflect "l1" =
      .ok (fun b c h w =>
        (∑ k, unfolded v1 .reflect oneImage b c h w k *
            specCombinedWeight v1 (fun _ => 1) (1, 1)
              (if "l1" = "l1" then colorDistSqL1 v1 .reflect oneImage
               else colorDistSqL2 v1 .reflect oneImage) b h w k) /
        (∑ k, specCombinedWeight v1 (fun _ => 1) (1, 1)
              (if "l1" = "l1" then colorDistSqL1 v1 .reflect oneImage
               else colorDistSqL2 v1 .reflect oneImage) b h w k)) :=
  ⟨rfl, rfl,
    claim4_output_formula oneImage (.pair 1 1) (.scalar 1) (1, 1) .reflect "l1"
      rfl unpack_pair11 (Or.inl rfl)⟩

/-- C7: for every validated input the call succeeds and returns an image; the
output type `Image B C H W` carries the claim that the output shape equals the
input shape `(B, C, H, W)`. -/
theorem claim7_output_shape (x : Image B C H W) (ks : KernelSize)
    (sc : SigmaColor) (ss : ℝ × ℝ) (bt : BorderType) (cdt : String)
    {σ : Fin B → ℝ} {v : ValidKs}
    (hσ : checkSigmaColor B sc = .ok σ) (hks : unpack2dKs ks = .ok v)
    (hcdt : cdt = "l1" ∨ cdt = "l2") :
    ∃ out : Image B C H W, bilateral_blur x ks sc ss bt cdt = .ok out := by
  unfold bilateral_blur
  rcases hcdt with h | h <;> subst h
  · refine ⟨blurOut v σ ss bt (colorDistSqL1 v bt x) x, ?_⟩
    rw [bilateralBlurT_run_l1 x ks sc ss bt hσ hks]
  · refine ⟨blurOut v σ ss bt (colorDistSqL2 v bt x) x, ?_⟩
    rw [bilateralBlurT_run_l2 x ks sc ss bt hσ hks]

/-- Witness for C7 at a concrete input. -/
theorem claim7_witness :
    ∃ out : Image 1 1 2 2,
      bilateral_blur fiveImage (.pair 3 3) (.scalar 1) (1.5, 1.5) .reflect "l2" =
        .ok out :=
  claim7_output_shape fiveImage (.pair 3 3) (.scalar 1) (1.5, 1.5) .reflect "l2"
    rfl unpack_pair33 (Or.inr rfl)

end Kornia
